import Mathlib

/-!
Shallow embedding of the credit-line registry of
`src/services/creditService.ts` (Creditra backend).

The registry keeps a JavaScript `Map<string, CreditLine>` keyed by the
line id.  A JS `Map` preserves key insertion order and `set` on an
existing key overwrites the value in place; we model it as an
association list with exactly those semantics (`mapSet`, `mapGet`).

Timestamps come from `new Date().toISOString()` in the source; each
operation of the embedding takes the timestamp produced by that call as
an explicit `ts : String` argument.  The source mutates the global
store and throws on failure; the embedding passes the store explicitly
and returns `Store × Except CreditError CreditLine`, where the error
cases return the input store unchanged exactly as the source throws
before executing any mutation statement.
-/

/-- Status of a credit line: `"active" | "suspended" | "closed"`. -/
inductive CreditLineStatus
  | active
  | suspended
  | closed
deriving DecidableEq

/-- Action tag of an audit event: `"created" | "suspended" | "closed"`. -/
inductive EventAction
  | created
  | suspended
  | closed
deriving DecidableEq

/-- One entry of a credit line's audit trail
(`{action, timestamp, actor?}`). -/
structure CreditLineEvent where
  action : EventAction
  timestamp : String
  actor : Option String
deriving DecidableEq

/-- A credit-line record. -/
structure CreditLine where
  id : String
  status : CreditLineStatus
  createdAt : String
  updatedAt : String
  events : List CreditLineEvent
deriving DecidableEq

/-- The two domain error kinds thrown by the service:
`InvalidTransitionError(currentStatus, requestedAction)` and
`CreditLineNotFoundError(id)`. -/
inductive CreditError
  | invalidTransition (currentStatus : CreditLineStatus) (requestedAction : String)
  | notFound (id : String)
deriving DecidableEq

/-- The store `_store : Map<string, CreditLine>`, modelled as an
association list in key insertion order (JS `Map` iteration order). -/
abbrev Store := List (String × CreditLine)

/-- `Map.get`: the value at the key, if present. -/
def mapGet : Store → String → Option CreditLine
  | [], _ => none
  | p :: rest, k => if p.1 = k then some p.2 else mapGet rest k

/-- `Map.set`: overwrite in place when the key is present (keeping its
insertion position), otherwise append at the end — JS `Map` semantics. -/
def mapSet : Store → String → CreditLine → Store
  | [], k, v => [(k, v)]
  | p :: rest, k, v => if p.1 = k then (k, v) :: rest else p :: mapSet rest k v

/-- `createCreditLine(id, status)`: build a record whose `createdAt`,
`updatedAt` and single `created` event all carry the timestamp `ts`,
store it under `id`, return it. -/
def createCreditLine (s : Store) (id : String) (status : CreditLineStatus)
    (ts : String) : Store × CreditLine :=
  let line : CreditLine :=
    { id := id
      status := status
      createdAt := ts
      updatedAt := ts
      events := [{ action := EventAction.created, timestamp := ts, actor := none }] }
  (mapSet s id line, line)

/-- `createCreditLine(id)` with the status parameter left at its
default value `"active"`. -/
def createCreditLineDefault (s : Store) (id : String) (ts : String) :
    Store × CreditLine :=
  createCreditLine s id CreditLineStatus.active ts

/-- `getCreditLine(id)`. -/
def getCreditLine (s : Store) (id : String) : Option CreditLine :=
  mapGet s id

/-- `listCreditLines()`: `Array.from(_store.values())`, i.e. the stored
records in key insertion order. -/
def listCreditLines (s : Store) : List CreditLine :=
  s.map (fun p => p.2)

/-- `suspendCreditLine(id)`: throw `NotFound` when absent, throw
`InvalidTransition(status, "suspend")` when the status is not
`active`, otherwise set status `suspended`, refresh `updatedAt` and
push a `suspended` event. -/
def suspendCreditLine (s : Store) (id : String) (ts : String) :
    Store × Except CreditError CreditLine :=
  match mapGet s id with
  | none => (s, Except.error (CreditError.notFound id))
  | some line =>
    if line.status ≠ CreditLineStatus.active then
      (s, Except.error (CreditError.invalidTransition line.status "suspend"))
    else
      let line' : CreditLine :=
        { line with
          status := CreditLineStatus.suspended
          updatedAt := ts
          events := line.events ++
            [{ action := EventAction.suspended, timestamp := ts, actor := none }] }
      (mapSet s id line', Except.ok line')

/-- `closeCreditLine(id)`: throw `NotFound` when absent, throw
`InvalidTransition("closed", "close")` when the status is `closed`,
otherwise set status `closed`, refresh `updatedAt` and push a `closed`
event. -/
def closeCreditLine (s : Store) (id : String) (ts : String) :
    Store × Except CreditError CreditLine :=
  match mapGet s id with
  | none => (s, Except.error (CreditError.notFound id))
  | some line =>
    if line.status = CreditLineStatus.closed then
      (s, Except.error (CreditError.invalidTransition line.status "close"))
    else
      let line' : CreditLine :=
        { line with
          status := CreditLineStatus.closed
          updatedAt := ts
          events := line.events ++
            [{ action := EventAction.closed, timestamp := ts, actor := none }] }
      (mapSet s id line', Except.ok line')

/-- One call against the registry, with the timestamp its `now()`
produced. -/
inductive Op
  | opCreate (id : String) (status : CreditLineStatus) (ts : String)
  | opSuspend (id : String) (ts : String)
  | opClose (id : String) (ts : String)

/-- Effect of one call on the store (errors leave it unchanged, as the
source throws before mutating). -/
def applyOp (s : Store) : Op → Store
  | Op.opCreate id st ts => (createCreditLine s id st ts).1
  | Op.opSuspend id ts => (suspendCreditLine s id ts).1
  | Op.opClose id ts => (closeCreditLine s id ts).1

/-- Effect of a call sequence, oldest first. -/
def applyOps (s : Store) (ops : List Op) : Store :=
  ops.foldl applyOp s

/-- Per-record timestamp/audit invariant: `createdAt` is the timestamp
of the first event, the first event's action is `created`, and
`updatedAt` is the timestamp of the last event. -/
def lineInv (r : CreditLine) : Prop :=
  (r.events.head?).map (fun e => e.timestamp) = some r.createdAt ∧
  (r.events.head?).map (fun e => e.action) = some EventAction.created ∧
  (r.events.getLast?).map (fun e => e.timestamp) = some r.updatedAt

/-- The property claimed in C4, stated as written: on every store
reachable from the empty store, no single further operation of any
kind changes the record under a key from `suspended` back to `active`,
and none changes the status of a record whose status is `closed`. -/
def noStatusReversal : Prop :=
  ∀ ops : List Op, ∀ op : Op, ∀ k : String, ∀ r r' : CreditLine,
    mapGet (applyOps [] ops) k = some r →
    mapGet (applyOp (applyOps [] ops) op) k = some r' →
    (r.status = CreditLineStatus.suspended → r'.status ≠ CreditLineStatus.active) ∧
    (r.status = CreditLineStatus.closed → r'.status = CreditLineStatus.closed)

/-- A sequence of `create` calls (id, initial status, timestamp),
applied oldest first. -/
def applyCreates (s : Store) (cs : List (String × CreditLineStatus × String)) :
    Store :=
  cs.foldl (fun acc c => (createCreditLine acc c.1 c.2.1 c.2.2).1) s

/-- The record a `create` call constructs (it does not depend on the
store contents). -/
def createdRecord (c : String × CreditLineStatus × String) : CreditLine :=
  (createCreditLine [] c.1 c.2.1 c.2.2).2

/-- The create calls of a sequence that are still present afterwards:
those not later overwritten by a create with the same id. -/
def survivors : List (String × CreditLineStatus × String) →
    List (String × CreditLineStatus × String)
  | [] => []
  | c :: rest => if rest.any (fun c' => c'.1 = c.1) then survivors rest
      else c :: survivors rest

/-- The ordering property claimed in C7, stated as written: after any
sequence of `create` calls the i-th element of `list()` is the record
created i-th among those still present. -/
def listedInCreationOrder : Prop :=
  ∀ cs : List (String × CreditLineStatus × String),
    listCreditLines (applyCreates [] cs) = (survivors cs).map createdRecord

-- ---------------------------------------------------------------------------
-- Store lemmas
-- ---------------------------------------------------------------------------

theorem mapGet_mapSet_self (s : Store) (k : String) (v : CreditLine) :
    mapGet (mapSet s k v) k = some v := by
  induction s with
  | nil => simp [mapGet, mapSet]
  | cons p rest ih =>
    by_cases h : p.1 = k
    · simp [mapGet, mapSet, h]
    · simp [mapGet, mapSet, h, ih]

theorem mapGet_mapSet_ne (s : Store) (k k' : String) (v : CreditLine)
    (h : k' ≠ k) : mapGet (mapSet s k v) k' = mapGet s k' := by
  have h' : k ≠ k' := Ne.symm h
  induction s with
  | nil => simp [mapGet, mapSet, h']
  | cons p rest ih =>
    by_cases hp : p.1 = k
    · subst hp
      simp [mapGet, mapSet, h', Ne.symm h']
    · by_cases hp' : p.1 = k'
      · simp [mapGet, mapSet, hp, hp', h]
      · simp [mapGet, mapSet, hp, hp', ih]

theorem mem_mapSet (s : Store) (k : String) (v : CreditLine)
    (p : String × CreditLine) (h : p ∈ mapSet s k v) : p = (k, v) ∨ p ∈ s := by
  induction s with
  | nil => simpa [mapSet] using h
  | cons q rest ih =>
    by_cases hq : q.1 = k
    · simp only [mapSet, hq, if_pos] at h
      rcases List.mem_cons.mp h with h | h
      · exact Or.inl h
      · exact Or.inr (List.mem_cons_of_mem _ h)
    · simp only [mapSet, hq, if_neg, not_false_iff] at h
      rcases List.mem_cons.mp h with h | h
      · exact Or.inr (h ▸ List.mem_cons_self _ _)
      · rcases ih h with h' | h'
        · exact Or.inl h'
        · exact Or.inr (List.mem_cons_of_mem _ h')

theorem mapGet_mem (s : Store) (k : String) (r : CreditLine)
    (h : mapGet s k = some r) : (k, r) ∈ s := by
  induction s with
  | nil => simp [mapGet] at h
  | cons p rest ih =>
    by_cases hp : p.1 = k
    · simp only [mapGet, hp, if_pos] at h
      obtain rfl : p.2 = r := Option.some.inj h
      exact hp ▸ (Prod.mk.eta (p := p)) ▸ List.mem_cons_self _ _
    · simp only [mapGet, hp, if_neg, not_false_iff] at h
      exact List.mem_cons_of_mem _ (ih h)

-- ---------------------------------------------------------------------------
-- Claim theorems
-- ---------------------------------------------------------------------------

/-- C1: for every id, `suspend(id)` fails with `NotFound(id)` when no
record with that id exists; fails with
`InvalidTransition(currentStatus, "suspend")` when the record's status
is not `active`; and otherwise sets the record's status to
`suspended`, refreshes `updatedAt` to the fresh timestamp, appends
exactly one event with action `suspended`, and returns the updated
record (which is also the record now stored under the id). -/
theorem suspendCreditLine_spec (s : Store) (id ts : String) :
    (mapGet s id = none →
      suspendCreditLine s id ts = (s, Except.error (CreditError.notFound id))) ∧
    (∀ line, mapGet s id = some line → line.status ≠ CreditLineStatus.active →
      suspendCreditLine s id ts =
        (s, Except.error (CreditError.invalidTransition line.status "suspend"))) ∧
    (∀ line, mapGet s id = some line → line.status = CreditLineStatus.active →
      ∃ line',
        suspendCreditLine s id ts = (mapSet s id line', Except.ok line') ∧
        line'.status = CreditLineStatus.suspended ∧
        line'.updatedAt = ts ∧
        line'.events = line.events ++
          [{ action := EventAction.suspended, timestamp := ts, actor := none }] ∧
        mapGet (suspendCreditLine s id ts).1 id = some line') := by
  refine ⟨fun h => ?_, fun line h hst => ?_, fun line h hst => ?_⟩
  · simp [suspendCreditLine, h]
  · simp [suspendCreditLine, h, hst]
  · refine ⟨{ line with
        status := CreditLineStatus.suspended
        updatedAt := ts
        events := line.events ++
          [{ action := EventAction.suspended, timestamp := ts, actor := none }] },
      ?_, rfl, rfl, rfl, ?_⟩
    · simp [suspendCreditLine, h, hst]
    · simp [suspendCreditLine, h, hst, mapGet_mapSet_self]

/-- C1 witness: on the store holding the single freshly created active
line `"x"`, `suspend("x")` succeeds with the suspended record. -/
theorem suspendCreditLine_spec_witness :
    ∃ line',
      suspendCreditLine (createCreditLine [] "x" CreditLineStatus.active "t0").1 "x" "t1" =
        (mapSet (createCreditLine [] "x" CreditLineStatus.active "t0").1 "x" line',
          Except.ok line') ∧
      line'.status = CreditLineStatus.suspended ∧
      line'.updatedAt = "t1" ∧
      line'.events =
        (createCreditLine [] "x" CreditLineStatus.active "t0").2.events ++
          [{ action := EventAction.suspended, timestamp := "t1", actor := none }] ∧
      mapGet
        (suspendCreditLine (createCreditLine [] "x" CreditLineStatus.active "t0").1 "x" "t1").1
        "x" = some line' :=
  (suspendCreditLine_spec (createCreditLine [] "x" CreditLineStatus.active "t0").1 "x" "t1").2.2
    (createCreditLine [] "x" CreditLineStatus.active "t0").2 (by decide) (by decide)

/-- C2: for every id, `close(id)` fails with `NotFound(id)` when no
record with that id exists; fails with
`InvalidTransition("closed", "close")` when the record's status is
`closed`; and otherwise (status `active` or `suspended`) sets the
status to `closed`, refreshes `updatedAt`, appends exactly one event
with action `closed`, and returns the updated record (which is also
the record now stored under the id). -/
theorem closeCreditLine_spec (s : Store) (id ts : String) :
    (mapGet s id = none →
      closeCreditLine s id ts = (s, Except.error (CreditError.notFound id))) ∧
    (∀ line, mapGet s id = some line → line.status = CreditLineStatus.closed →
      closeCreditLine s id ts =
        (s, Except.error
          (CreditError.invalidTransition CreditLineStatus.closed "close"))) ∧
    (∀ line, mapGet s id = some line → line.status ≠ CreditLineStatus.closed →
      ∃ line',
        closeCreditLine s id ts = (mapSet s id line', Except.ok line') ∧
        line'.status = CreditLineStatus.closed ∧
        line'.updatedAt = ts ∧
        line'.events = line.events ++
          [{ action := EventAction.closed, timestamp := ts, actor := none }] ∧
        mapGet (closeCreditLine s id ts).1 id = some line') := by
  refine ⟨fun h => ?_, fun line h hst => ?_, fun line h hst => ?_⟩
  · simp [closeCreditLine, h]
  · simp [closeCreditLine, h, hst]
  · refine ⟨{ line with
        status := CreditLineStatus.closed
        updatedAt := ts
        events := line.events ++
          [{ action := EventAction.closed, timestamp := ts, actor := none }] },
      ?_, rfl, rfl, rfl, ?_⟩
    · simp [closeCreditLine, h, hst]
    · simp [closeCreditLine, h, hst, mapGet_mapSet_self]

/-- C2 witness: on the store holding the single freshly created
suspended line `"x"`, `close("x")` succeeds with the closed record. -/
theorem closeCreditLine_spec_witness :
    ∃ line',
      closeCreditLine (createCreditLine [] "x" CreditLineStatus.suspended "t0").1 "x" "t1" =
        (mapSet (createCreditLine [] "x" CreditLineStatus.suspended "t0").1 "x" line',
          Except.ok line') ∧
      line'.status = CreditLineStatus.closed ∧
      line'.updatedAt = "t1" ∧
      line'.events =
        (createCreditLine [] "x" CreditLineStatus.suspended "t0").2.events ++
          [{ action := EventAction.closed, timestamp := "t1", actor := none }] ∧
      mapGet
        (closeCreditLine (createCreditLine [] "x" CreditLineStatus.suspended "t0").1 "x" "t1").1
        "x" = some line' :=
  (closeCreditLine_spec (createCreditLine [] "x" CreditLineStatus.suspended "t0").1 "x" "t1").2.2
    (createCreditLine [] "x" CreditLineStatus.suspended "t0").2 (by decide) (by decide)

/-- C3: whenever `suspend(id)` or `close(id)` raises either error kind,
the entire store is unchanged — the target record (if any) keeps its
status, `updatedAt` and event sequence, and no other record is
touched. -/
theorem transition_error_atomic (s : Store) (id ts : String) (e : CreditError) :
    ((suspendCreditLine s id ts).2 = Except.error e →
      (suspendCreditLine s id ts).1 = s) ∧
    ((closeCreditLine s id ts).2 = Except.error e →
      (closeCreditLine s id ts).1 = s) := by
  constructor
  · intro h
    unfold suspendCreditLine at *
    cases hg : mapGet s id with
    | none => simp [hg]
    | some line =>
      by_cases hst : line.status = CreditLineStatus.active
      · rw [hg] at h
        simp [hst] at h
      · simp [hg, hst]
  · intro h
    unfold closeCreditLine at *
    cases hg : mapGet s id with
    | none => simp [hg]
    | some line =>
      by_cases hst : line.status = CreditLineStatus.closed
      · simp [hg, hst]
      · rw [hg] at h
        simp [hst] at h

/-- C3 witness: on the store holding one suspended line `"x"`,
`suspend("x")` errors and leaves the store unchanged (and so does
`close` on the empty store). -/
theorem transition_error_atomic_witness :
    (suspendCreditLine (createCreditLine [] "x" CreditLineStatus.suspended "t0").1 "x" "t1").1 =
      (createCreditLine [] "x" CreditLineStatus.suspended "t0").1 :=
  (transition_error_atomic (createCreditLine [] "x" CreditLineStatus.suspended "t0").1 "x" "t1"
    (CreditError.invalidTransition CreditLineStatus.suspended "suspend")).1 rfl

/-- C5: `create(id)` with no explicit status stores (and returns) a
record with status `active` whose events sequence is exactly the one
`created` entry; with an explicit initial status the stored record
carries that status instead. -/
theorem createCreditLine_spec (s : Store) (id ts : String) (st : CreditLineStatus) :
    (mapGet (createCreditLineDefault s id ts).1 id =
        some (createCreditLineDefault s id ts).2 ∧
      (createCreditLineDefault s id ts).2.status = CreditLineStatus.active ∧
      (createCreditLineDefault s id ts).2.events =
        [{ action := EventAction.created, timestamp := ts, actor := none }]) ∧
    (mapGet (createCreditLine s id st ts).1 id =
        some (createCreditLine s id st ts).2 ∧
      (createCreditLine s id st ts).2.status = st ∧
      (createCreditLine s id st ts).2.events =
        [{ action := EventAction.created, timestamp := ts, actor := none }]) := by
  refine ⟨⟨?_, rfl, rfl⟩, ⟨?_, rfl, rfl⟩⟩
  · exact mapGet_mapSet_self s id _
  · exact mapGet_mapSet_self s id _

/-- C8: `create(id)` on an id that is already present replaces the
stored record entirely: afterwards the record under `id` is the fresh
one, whose every field is determined by the arguments of the call
alone — a single `created` event, status and timestamps of the new
call — regardless of the old record's status or audit trail. -/
theorem createCreditLine_overwrites (s : Store) (id ts : String)
    (st : CreditLineStatus) (old : CreditLine) (h : mapGet s id = some old) :
    mapGet (createCreditLine s id st ts).1 id =
      some
        { id := id, status := st, createdAt := ts, updatedAt := ts,
          events := [{ action := EventAction.created, timestamp := ts, actor := none }] } :=
  mapGet_mapSet_self s id _

/-- C8 witness: recreating `"x"` over a suspended record yields a fresh
active record with a one-event trail. -/
theorem createCreditLine_overwrites_witness :
    mapGet
      (createCreditLine
        (applyOps [] [Op.opCreate "x" CreditLineStatus.active "t0", Op.opSuspend "x" "t1"])
        "x" CreditLineStatus.active "t2").1 "x" =
      some
        { id := "x", status := CreditLineStatus.active, createdAt := "t2",
          updatedAt := "t2",
          events := [{ action := EventAction.created, timestamp := "t2", actor := none }] } :=
  createCreditLine_overwrites
    (applyOps [] [Op.opCreate "x" CreditLineStatus.active "t0", Op.opSuspend "x" "t1"])
    "x" "t2" CreditLineStatus.active
    { id := "x", status := CreditLineStatus.suspended, createdAt := "t0", updatedAt := "t1",
      events := [{ action := EventAction.created, timestamp := "t0", actor := none },
        { action := EventAction.suspended, timestamp := "t1", actor := none }] }
    (by decide)

theorem suspend_ok_inv (s : Store) (id ts : String) (line' : CreditLine)
    (h : (suspendCreditLine s id ts).2 = Except.ok line') :
    ∃ line, mapGet s id = some line ∧
      line.status = CreditLineStatus.active ∧
      line'.id = line.id ∧
      line'.status = CreditLineStatus.suspended ∧
      line'.createdAt = line.createdAt ∧
      line'.updatedAt = ts ∧
      line'.events = line.events ++
        [{ action := EventAction.suspended, timestamp := ts, actor := none }] ∧
      (suspendCreditLine s id ts).1 = mapSet s id line' := by
  cases hg : mapGet s id with
  | none =>
    rw [suspendCreditLine, hg] at h
    simp at h
  | some line =>
    by_cases hst : line.status = CreditLineStatus.active
    · rw [suspendCreditLine, hg] at h
      simp only [hst, ne_eq, not_true_eq_false, if_false] at h
      have hl : _ = line' := Except.ok.inj h
      subst hl
      refine ⟨line, rfl, hst, rfl, rfl, rfl, rfl, rfl, ?_⟩
      simp [suspendCreditLine, hg, hst]
    · rw [suspendCreditLine, hg] at h
      simp [hst] at h

theorem close_ok_inv (s : Store) (id ts : String) (line' : CreditLine)
    (h : (closeCreditLine s id ts).2 = Except.ok line') :
    ∃ line, mapGet s id = some line ∧
      line.status ≠ CreditLineStatus.closed ∧
      line'.id = line.id ∧
      line'.status = CreditLineStatus.closed ∧
      line'.createdAt = line.createdAt ∧
      line'.updatedAt = ts ∧
      line'.events = line.events ++
        [{ action := EventAction.closed, timestamp := ts, actor := none }] ∧
      (closeCreditLine s id ts).1 = mapSet s id line' := by
  cases hg : mapGet s id with
  | none =>
    rw [closeCreditLine, hg] at h
    simp at h
  | some line =>
    by_cases hst : line.status = CreditLineStatus.closed
    · rw [closeCreditLine, hg] at h
      simp [hst] at h
    · rw [closeCreditLine, hg] at h
      simp only [hst, if_false, ite_false] at h
      have hl : _ = line' := Except.ok.inj h
      subst hl
      refine ⟨line, rfl, hst, rfl, rfl, rfl, rfl, rfl, ?_⟩
      simp [closeCreditLine, hg, hst]

/-- C6: every successful `suspend(id)` or `close(id)` mutates exactly
the record keyed by `id` — appending exactly one event to it and
leaving its `id`, `createdAt` and all previously existing event
entries unchanged — while every other record in the store is
completely unchanged. -/
theorem transition_frame (s : Store) (id ts : String) (line' : CreditLine) :
    ((suspendCreditLine s id ts).2 = Except.ok line' →
      ∃ line, mapGet s id = some line ∧
        mapGet (suspendCreditLine s id ts).1 id = some line' ∧
        line'.id = line.id ∧
        line'.createdAt = line.createdAt ∧
        line'.events = line.events ++
          [{ action := EventAction.suspended, timestamp := ts, actor := none }] ∧
        line'.events.length = line.events.length + 1 ∧
        (∀ i, i < line.events.length → line'.events[i]? = line.events[i]?) ∧
        (∀ k, k ≠ id → mapGet (suspendCreditLine s id ts).1 k = mapGet s k)) ∧
    ((closeCreditLine s id ts).2 = Except.ok line' →
      ∃ line, mapGet s id = some line ∧
        mapGet (closeCreditLine s id ts).1 id = some line' ∧
        line'.id = line.id ∧
        line'.createdAt = line.createdAt ∧
        line'.events = line.events ++
          [{ action := EventAction.closed, timestamp := ts, actor := none }] ∧
        line'.events.length = line.events.length + 1 ∧
        (∀ i, i < line.events.length → line'.events[i]? = line.events[i]?) ∧
        (∀ k, k ≠ id → mapGet (closeCreditLine s id ts).1 k = mapGet s k)) := by
  constructor
  · intro h
    obtain ⟨line, hg, _, hid, _, hcr, _, hev, hs1⟩ := suspend_ok_inv s id ts line' h
    refine ⟨line, hg, ?_, hid, hcr, hev, ?_, ?_, ?_⟩
    · rw [hs1]; exact mapGet_mapSet_self s id line'
    · rw [hev]; simp
    · intro i hi
      rw [hev]
      exact List.getElem?_append_left hi
    · intro k hk
      rw [hs1]; exact mapGet_mapSet_ne s id k line' hk
  · intro h
    obtain ⟨line, hg, _, hid, _, hcr, _, hev, hs1⟩ := close_ok_inv s id ts line' h
    refine ⟨line, hg, ?_, hid, hcr, hev, ?_, ?_, ?_⟩
    · rw [hs1]; exact mapGet_mapSet_self s id line'
    · rw [hev]; simp
    · intro i hi
      rw [hev]
      exact List.getElem?_append_left hi
    · intro k hk
      rw [hs1]; exact mapGet_mapSet_ne s id k line' hk

/-- C6 witness: suspending the freshly created line `"x"` mutates
exactly that record, appending one event. -/
theorem transition_frame_witness :
    ∃ line,
      mapGet (createCreditLine [] "x" CreditLineStatus.active "t0").1 "x" = some line ∧
      mapGet
        (suspendCreditLine (createCreditLine [] "x" CreditLineStatus.active "t0").1
          "x" "t1").1 "x" =
        some
          { id := "x", status := CreditLineStatus.suspended, createdAt := "t0",
            updatedAt := "t1",
            events := [{ action := EventAction.created, timestamp := "t0", actor := none },
              { action := EventAction.suspended, timestamp := "t1", actor := none }] } ∧
      CreditLine.id
          { id := "x", status := CreditLineStatus.suspended, createdAt := "t0",
            updatedAt := "t1",
            events := [{ action := EventAction.created, timestamp := "t0", actor := none },
              { action := EventAction.suspended, timestamp := "t1", actor := none }] } =
        line.id ∧
      CreditLine.createdAt
          { id := "x", status := CreditLineStatus.suspended, createdAt := "t0",
            updatedAt := "t1",
            events := [{ action := EventAction.created, timestamp := "t0", actor := none },
              { action := EventAction.suspended, timestamp := "t1", actor := none }] } =
        line.createdAt ∧
      CreditLine.events
          { id := "x", status := CreditLineStatus.suspended, createdAt := "t0",
            updatedAt := "t1",
            events := [{ action := EventAction.created, timestamp := "t0", actor := none },
              { action := EventAction.suspended, timestamp := "t1", actor := none }] } =
        line.events ++
          [{ action := EventAction.suspended, timestamp := "t1", actor := none }] ∧
      List.length
          (CreditLine.events
            { id := "x", status := CreditLineStatus.suspended, createdAt := "t0",
              updatedAt := "t1",
              events := [{ action := EventAction.created, timestamp := "t0", actor := none },
                { action := EventAction.suspended, timestamp := "t1", actor := none }] }) =
        line.events.length + 1 ∧
      (∀ i, i < line.events.length →
        (CreditLine.events
          { id := "x", status := CreditLineStatus.suspended, createdAt := "t0",
            updatedAt := "t1",
            events := [{ action := EventAction.created, timestamp := "t0", actor := none },
              { action := EventAction.suspended, timestamp := "t1", actor := none }] })[i]? =
          line.events[i]?) ∧
      (∀ k, k ≠ "x" →
        mapGet
          (suspendCreditLine (createCreditLine [] "x" CreditLineStatus.active "t0").1
            "x" "t1").1 k =
          mapGet (createCreditLine [] "x" CreditLineStatus.active "t0").1 k) :=
  (transition_frame (createCreditLine [] "x" CreditLineStatus.active "t0").1 "x" "t1"
    { id := "x", status := CreditLineStatus.suspended, createdAt := "t0",
      updatedAt := "t1",
      events := [{ action := EventAction.created, timestamp := "t0", actor := none },
        { action := EventAction.suspended, timestamp := "t1", actor := none }] }).1 rfl

theorem suspend_store_cases (s : Store) (id ts : String) :
    (suspendCreditLine s id ts).1 = s ∨
    ∃ line, mapGet s id = some line ∧
      line.status = CreditLineStatus.active ∧
      (suspendCreditLine s id ts).1 =
        mapSet s id
          { line with
            status := CreditLineStatus.suspended
            updatedAt := ts
            events := line.events ++
              [{ action := EventAction.suspended, timestamp := ts, actor := none }] } := by
  cases hg : mapGet s id with
  | none => left; simp [suspendCreditLine, hg]
  | some line =>
    by_cases hst : line.status = CreditLineStatus.active
    · right
      exact ⟨line, rfl, hst, by simp [suspendCreditLine, hg, hst]⟩
    · left; simp [suspendCreditLine, hg, hst]

theorem close_store_cases (s : Store) (id ts : String) :
    (closeCreditLine s id ts).1 = s ∨
    ∃ line, mapGet s id = some line ∧
      line.status ≠ CreditLineStatus.closed ∧
      (closeCreditLine s id ts).1 =
        mapSet s id
          { line with
            status := CreditLineStatus.closed
            updatedAt := ts
            events := line.events ++
              [{ action := EventAction.closed, timestamp := ts, actor := none }] } := by
  cases hg : mapGet s id with
  | none => left; simp [closeCreditLine, hg]
  | some line =>
    by_cases hst : line.status = CreditLineStatus.closed
    · left; simp [closeCreditLine, hg, hst]
    · right
      exact ⟨line, rfl, hst, by simp [closeCreditLine, hg, hst]⟩

/-- C4 counterexample: the claim as stated is false — `create` on an
existing id is an operation that changes the record under a key from
`suspended` back to `active` (last write wins): create `"x"` active,
suspend it, then create `"x"` again. -/
theorem noStatusReversal_false : ¬ noStatusReversal := by
  intro h
  have hx :=
    (h [Op.opCreate "x" CreditLineStatus.active "t0", Op.opSuspend "x" "t1"]
      (Op.opCreate "x" CreditLineStatus.active "t2") "x"
      { id := "x", status := CreditLineStatus.suspended, createdAt := "t0",
        updatedAt := "t1",
        events := [{ action := EventAction.created, timestamp := "t0", actor := none },
          { action := EventAction.suspended, timestamp := "t1", actor := none }] }
      { id := "x", status := CreditLineStatus.active, createdAt := "t2",
        updatedAt := "t2",
        events := [{ action := EventAction.created, timestamp := "t2", actor := none }] }
      (by decide) (by decide)).1 rfl
  exact hx rfl

/-- C4 (amended): restricted to the transition operations `suspend` and
`close` — on any store (reachable ones included) they never change a
record's status from `suspended` back to `active` and never change the
status of a `closed` record: the only status changes they perform are
active→suspended, active→closed and suspended→closed. -/
theorem transition_status_monotone (s : Store) (id ts k : String)
    (r r' : CreditLine) (hr : mapGet s k = some r) :
    (mapGet (suspendCreditLine s id ts).1 k = some r' →
      r'.status = r.status ∨
        (r.status = CreditLineStatus.active ∧
          r'.status = CreditLineStatus.suspended)) ∧
    (mapGet (closeCreditLine s id ts).1 k = some r' →
      r'.status = r.status ∨
        (r.status ≠ CreditLineStatus.closed ∧
          r'.status = CreditLineStatus.closed)) := by
  constructor
  · intro h'
    rcases suspend_store_cases s id ts with hcase | ⟨line, hg, hst, hcase⟩
    · rw [hcase, hr] at h'
      exact Or.inl (by rw [← Option.some.inj h'])
    · by_cases hk : k = id
      · subst hk
        rw [hcase, mapGet_mapSet_self] at h'
        obtain rfl : r = line := Option.some.inj (hr.symm.trans hg)
        refine Or.inr ⟨hst, ?_⟩
        rw [← Option.some.inj h']
      · rw [hcase, mapGet_mapSet_ne s id k _ hk, hr] at h'
        exact Or.inl (by rw [← Option.some.inj h'])
  · intro h'
    rcases close_store_cases s id ts with hcase | ⟨line, hg, hst, hcase⟩
    · rw [hcase, hr] at h'
      exact Or.inl (by rw [← Option.some.inj h'])
    · by_cases hk : k = id
      · subst hk
        rw [hcase, mapGet_mapSet_self] at h'
        obtain rfl : r = line := Option.some.inj (hr.symm.trans hg)
        refine Or.inr ⟨hst, ?_⟩
        rw [← Option.some.inj h']
      · rw [hcase, mapGet_mapSet_ne s id k _ hk, hr] at h'
        exact Or.inl (by rw [← Option.some.inj h'])

/-- C4 witness: instantiated on the freshly created active line `"x"`
and its suspension. -/
theorem transition_status_monotone_witness :
    CreditLine.status
        { id := "x", status := CreditLineStatus.suspended, createdAt := "t0",
          updatedAt := "t1",
          events := [{ action := EventAction.created, timestamp := "t0", actor := none },
            { action := EventAction.suspended, timestamp := "t1", actor := none }] } =
      CreditLine.status
        { id := "x", status := CreditLineStatus.active, createdAt := "t0",
          updatedAt := "t0",
          events := [{ action := EventAction.created, timestamp := "t0", actor := none }] } ∨
    (CreditLine.status
        { id := "x", status := CreditLineStatus.active, createdAt := "t0",
          updatedAt := "t0",
          events := [{ action := EventAction.created, timestamp := "t0", actor := none }] } =
        CreditLineStatus.active ∧
      CreditLine.status
        { id := "x", status := CreditLineStatus.suspended, createdAt := "t0",
          updatedAt := "t1",
          events := [{ action := EventAction.created, timestamp := "t0", actor := none },
            { action := EventAction.suspended, timestamp := "t1", actor := none }] } =
        CreditLineStatus.suspended) :=
  (transition_status_monotone (createCreditLine [] "x" CreditLineStatus.active "t0").1
    "x" "t1" "x"
    { id := "x", status := CreditLineStatus.active, createdAt := "t0",
      updatedAt := "t0",
      events := [{ action := EventAction.created, timestamp := "t0", actor := none }] }
    { id := "x", status := CreditLineStatus.suspended, createdAt := "t0",
      updatedAt := "t1",
      events := [{ action := EventAction.created, timestamp := "t0", actor := none },
        { action := EventAction.suspended, timestamp := "t1", actor := none }] }
    rfl).1 rfl

theorem head?_append_left {α : Type} (l l' : List α) (h : l ≠ []) :
    (l ++ l').head? = l.head? := by
  cases l with
  | nil => exact absurd rfl h
  | cons a t => rfl

theorem lineInv_append (line : CreditLine) (ts : String)
    (st : CreditLineStatus) (e : CreditLineEvent) (he : e.timestamp = ts)
    (h : lineInv line) :
    lineInv
      { line with status := st, updatedAt := ts, events := line.events ++ [e] } := by
  obtain ⟨h1, h2, _⟩ := h
  have hne : line.events ≠ [] := by
    intro hnil
    rw [hnil] at h1
    simp at h1
  refine ⟨?_, ?_, ?_⟩
  · show ((line.events ++ [e]).head?).map (fun x => x.timestamp) = some line.createdAt
    rw [head?_append_left _ _ hne]
    exact h1
  · show ((line.events ++ [e]).head?).map (fun x => x.action) = some EventAction.created
    rw [head?_append_left _ _ hne]
    exact h2
  · show ((line.events ++ [e]).getLast?).map (fun x => x.timestamp) = some ts
    rw [List.getLast?_concat]
    simp [he]

theorem storeInv_applyOp (s : Store) (op : Op)
    (h : ∀ p ∈ s, lineInv p.2) : ∀ p ∈ applyOp s op, lineInv p.2 := by
  cases op with
  | opCreate id st ts =>
    intro p hp
    rcases mem_mapSet s id _ p hp with hnew | hold
    · rw [hnew]
      exact ⟨rfl, rfl, rfl⟩
    · exact h p hold
  | opSuspend id ts =>
    intro p hp
    rcases suspend_store_cases s id ts with hcase | ⟨line, hg, _, hcase⟩
    · rw [applyOp] at hp
      rw [hcase] at hp
      exact h p hp
    · rw [applyOp] at hp
      rw [hcase] at hp
      rcases mem_mapSet s id _ p hp with hnew | hold
      · rw [hnew]
        exact lineInv_append line ts CreditLineStatus.suspended _ rfl
          (h (id, line) (mapGet_mem s id line hg))
      · exact h p hold
  | opClose id ts =>
    intro p hp
    rcases close_store_cases s id ts with hcase | ⟨line, hg, _, hcase⟩
    · rw [applyOp] at hp
      rw [hcase] at hp
      exact h p hp
    · rw [applyOp] at hp
      rw [hcase] at hp
      rcases mem_mapSet s id _ p hp with hnew | hold
      · rw [hnew]
        exact lineInv_append line ts CreditLineStatus.closed _ rfl
          (h (id, line) (mapGet_mem s id line hg))
      · exact h p hold

theorem storeInv_applyOps (ops : List Op) :
    ∀ s : Store, (∀ p ∈ s, lineInv p.2) → ∀ p ∈ applyOps s ops, lineInv p.2 := by
  induction ops with
  | nil => intro s h p hp; exact h p hp
  | cons op rest ih =>
    intro s h p hp
    exact ih (applyOp s op) (storeInv_applyOp s op h) p hp

/-- C10: on every store reachable by create/suspend/close calls from
the empty store, each record's `updatedAt` equals the timestamp of the
last entry of its events sequence, and `createdAt` equals the
timestamp of its first entry, whose action is `created`; in
particular, immediately after `create`, `createdAt`, `updatedAt` and
the single event's timestamp are all the call's timestamp. -/
theorem timestamps_track_events :
    (∀ ops : List Op, ∀ k : String, ∀ r : CreditLine,
      mapGet (applyOps [] ops) k = some r →
      (r.events.head?).map (fun e => e.timestamp) = some r.createdAt ∧
      (r.events.head?).map (fun e => e.action) = some EventAction.created ∧
      (r.events.getLast?).map (fun e => e.timestamp) = some r.updatedAt) ∧
    (∀ s : Store, ∀ id ts : String, ∀ st : CreditLineStatus,
      (createCreditLine s id st ts).2.createdAt = ts ∧
      (createCreditLine s id st ts).2.updatedAt = ts ∧
      ((createCreditLine s id st ts).2.events.head?).map (fun e => e.timestamp) =
        some ts) := by
  constructor
  · intro ops k r hget
    exact storeInv_applyOps ops [] (by intro p hp; simp at hp) (k, r)
      (mapGet_mem (applyOps [] ops) k r hget)
  · intro s id ts st
    exact ⟨rfl, rfl, rfl⟩

/-- C10 witness: instantiated on the two-call history create then
suspend of `"x"`. -/
theorem timestamps_track_events_witness :
    (CreditLineEvent.timestamp <$>
        List.head?
          (CreditLine.events
            { id := "x", status := CreditLineStatus.suspended, createdAt := "t0",
              updatedAt := "t1",
              events := [{ action := EventAction.created, timestamp := "t0", actor := none },
                { action := EventAction.suspended, timestamp := "t1", actor := none }] }) =
      some "t0") ∧
    (CreditLineEvent.action <$>
        List.head?
          (CreditLine.events
            { id := "x", status := CreditLineStatus.suspended, createdAt := "t0",
              updatedAt := "t1",
              events := [{ action := EventAction.created, timestamp := "t0", actor := none },
                { action := EventAction.suspended, timestamp := "t1", actor := none }] }) =
      some EventAction.created) ∧
    (CreditLineEvent.timestamp <$>
        List.getLast?
          (CreditLine.events
            { id := "x", status := CreditLineStatus.suspended, createdAt := "t0",
              updatedAt := "t1",
              events := [{ action := EventAction.created, timestamp := "t0", actor := none },
                { action := EventAction.suspended, timestamp := "t1", actor := none }] }) =
      some "t1") :=
  timestamps_track_events.1
    [Op.opCreate "x" CreditLineStatus.active "t0", Op.opSuspend "x" "t1"] "x"
    { id := "x", status := CreditLineStatus.suspended, createdAt := "t0",
      updatedAt := "t1",
      events := [{ action := EventAction.created, timestamp := "t0", actor := none },
        { action := EventAction.suspended, timestamp := "t1", actor := none }] }
    (by decide)

theorem mapSet_not_mem (s : Store) (k : String) (v : CreditLine)
    (h : ∀ p ∈ s, p.1 ≠ k) : mapSet s k v = s ++ [(k, v)] := by
  induction s with
  | nil => rfl
  | cons p rest ih =>
    have hp : p.1 ≠ k := h p (List.mem_cons_self _ _)
    simp only [mapSet, if_neg hp, List.cons_append]
    rw [ih (fun q hq => h q (List.mem_cons_of_mem _ hq))]

theorem applyCreates_distinct (cs : List (String × CreditLineStatus × String)) :
    ∀ s : Store, (∀ c ∈ cs, ∀ p ∈ s, p.1 ≠ c.1) →
    (cs.map (fun c => c.1)).Nodup →
    listCreditLines (applyCreates s cs) =
      listCreditLines s ++ cs.map createdRecord := by
  induction cs with
  | nil => intro s _ _; simp [applyCreates]
  | cons c rest ih =>
    intro s hdisj hnodup
    rw [List.map_cons, List.nodup_cons] at hnodup
    have hstep : applyCreates s (c :: rest) =
        applyCreates (mapSet s c.1 (createdRecord c)) rest := rfl
    rw [hstep, mapSet_not_mem s c.1 _
      (fun p hp => hdisj c (List.mem_cons_self _ _) p hp)]
    rw [ih (s ++ [(c.1, createdRecord c)]) ?_ hnodup.2]
    · simp [listCreditLines]
    · intro c' hc' p hp
      rcases List.mem_append.mp hp with hps | hpn
      · exact hdisj c' (List.mem_cons_of_mem _ hc') p hps
      · have hp1 : p.1 = c.1 := by
          rcases List.mem_singleton.mp hpn with rfl
          rfl
        rw [hp1]
        intro hcc
        exact hnodup.1 (hcc ▸ List.mem_map_of_mem (fun x => x.1) hc')

/-- C7 counterexample: the claim as stated is false — after
`create("a")`, `create("b")`, `create("a")` the surviving records in
creation order are the `"b"` record then the fresh `"a"` record, but
`list()` returns the `"a"` record first, because a JS `Map` keeps the
original insertion position of a re-set key. -/
theorem listedInCreationOrder_false : ¬ listedInCreationOrder := by
  intro h
  have hx := h [("a", CreditLineStatus.active, "t0"),
    ("b", CreditLineStatus.active, "t1"), ("a", CreditLineStatus.active, "t2")]
  revert hx
  decide

/-- C7 (amended): `list()` returns all records currently in the store
— every record a `get` can see is in the returned list — in key
insertion order, and has no side effects; for every sequence of
`create` calls with pairwise distinct ids, the i-th element of
`list()` is the record created i-th.  (When an id is re-created, the
record keeps the id's original list position instead of moving to the
end.) -/
theorem listCreditLines_order (s : Store)
    (cs : List (String × CreditLineStatus × String))
    (h : (cs.map (fun c => c.1)).Nodup) :
    (∀ k : String, ∀ r : CreditLine,
      mapGet s k = some r → r ∈ listCreditLines s) ∧
    listCreditLines (applyCreates [] cs) = cs.map createdRecord := by
  constructor
  · intro k r hget
    exact List.mem_map_of_mem (fun p => p.2) (mapGet_mem s k r hget)
  · have hd := applyCreates_distinct cs [] (by intro c _ p hp; simp at hp) h
    simpa [listCreditLines] using hd

/-- C7 witness: instantiated on creating `"a"` then `"b"`. -/
theorem listCreditLines_order_witness :
    (∀ k : String, ∀ r : CreditLine,
      mapGet
        (applyCreates [] [("a", CreditLineStatus.active, "t0"),
          ("b", CreditLineStatus.active, "t1")]) k = some r →
      r ∈ listCreditLines
        (applyCreates [] [("a", CreditLineStatus.active, "t0"),
          ("b", CreditLineStatus.active, "t1")])) ∧
    listCreditLines
        (applyCreates [] [("a", CreditLineStatus.active, "t0"),
          ("b", CreditLineStatus.active, "t1")]) =
      List.map createdRecord [("a", CreditLineStatus.active, "t0"),
        ("b", CreditLineStatus.active, "t1")] :=
  listCreditLines_order
    (applyCreates [] [("a", CreditLineStatus.active, "t0"),
      ("b", CreditLineStatus.active, "t1")])
    [("a", CreditLineStatus.active, "t0"), ("b", CreditLineStatus.active, "t1")]
    (by decide)
